import Mathlib

/-!
Shallow embedding of the market bot (src/bot.py): the player cache and its
incremental crawler (`PlayerCache.update_cache`), the by-name lookup resolver
(`MyClient.search_player_by_name`), the cursor-following market aggregation
loop shared by the `buyorders` and `sales` commands, the bounded seller-name
batch resolution block, and the non-destructive `sort_items` helper.
Network responses are inputs to the embedded functions; persistence is
modelled by returning the snapshot that would be written.
-/

/-- A catalog record ("player"): opaque id plus the optional `"name"` field
    (upstream payloads may omit it). Other payload attributes are carried
    along by the code unread, so they are not modelled. -/
structure Player where
  id : String
  name : Option String
deriving Repr, DecidableEq

/-- Insert-or-update by key, replacing the value of an existing key in place
    (Python dict assignment keeps the key's position; a new key is appended). -/
def upsert : List (String × Player) → String → Player → List (String × Player)
  | [], pid, p => [(pid, p)]
  | q :: rest, pid, p =>
      if q.fst == pid then (pid, p) :: rest else q :: upsert rest pid p

/-- `pid in cache.players` followed by `cache.players[pid]`. -/
def lookupPlayer (ps : List (String × Player)) (pid : String) : Option Player :=
  (ps.find? (fun q => q.fst == pid)).map Prod.snd

/-- The per-page merge: `for player in players_list: if player and "id" in
    player: self.players[player["id"]] = player`. Entries that are null or
    lack an id are skipped by the code, so the input list holds the valid
    entries. -/
def mergePlayers (ps : List (String × Player)) (incoming : List Player) :
    List (String × Player) :=
  incoming.foldl (fun acc p => upsert acc p.id p) ps

/-! ### Incremental crawler (`PlayerCache.update_cache`) -/

/-- Parsed body of a 200 response for a players collection page that contains
    the `"page"` object. `embeddedPlayers = none` models a body with no
    `_embedded`/`players` key. -/
structure PlayersPage where
  totalPages : Nat
  totalElements : Nat
  embeddedPlayers : Option (List Player)
deriving Repr, DecidableEq

/-- Outcome of the initial page-0 fetch: 200 with a `"page"` object, a
    non-200 status, or a 200 body from which total pages cannot be read. -/
inductive InitResponse where
  | ok (page0 : PlayersPage)
  | badStatus
  | malformed
deriving Repr, DecidableEq

/-- Outcome of one sweep-page (or freshness-pass) fetch: 200 with or without
    the embedded players list, or a failure (non-200 status or a raised
    exception, which the code treats alike: log, longer sleep, continue). -/
inductive SweepResponse where
  | ok (embeddedPlayers : Option (List Player))
  | failed
deriving Repr, DecidableEq

/-- The upstream as seen by one `update_cache` cycle: the initial page-0
    response, the page-0 freshness re-fetch response, and one response per
    swept page number. -/
structure CrawlUpstream where
  initResp : InitResponse
  freshResp : SweepResponse
  sweepResp : Nat → SweepResponse

/-- In-memory `PlayerCache` state that is persisted to the cache file. -/
structure CacheSnapshot where
  players : List (String × Player)
  lastUpdate : Option String
  highestPageChecked : Nat
deriving Repr, DecidableEq

/-- Body of the sweep loop for one page: on 200 with an embedded players
    list, merge the records and advance
    `highest_page_checked = max(highest_page_checked, page + 1)`;
    on 200 without the list, or on failure, the state is untouched
    (the tracker is only advanced inside the success-with-list branch). -/
def sweepStep (resp : SweepResponse) (page : Nat) (s : CacheSnapshot) :
    CacheSnapshot :=
  match resp with
  | SweepResponse.ok (some pl) =>
      { s with players := mergePlayers s.players pl,
               highestPageChecked := max s.highestPageChecked (page + 1) }
  | SweepResponse.ok none => s
  | SweepResponse.failed => s

/-- The sweep over a list of page numbers, in order. -/
def runSweep (resp : Nat → SweepResponse) (pages : List Nat) (s : CacheSnapshot) :
    CacheSnapshot :=
  pages.foldl (fun t page => sweepStep (resp page) page t) s

/-- All intermediate states of the sweep, starting state included
    (instrumented view of `runSweep`). -/
def sweepStates (resp : Nat → SweepResponse) (pages : List Nat) (s : CacheSnapshot) :
    List CacheSnapshot :=
  match pages with
  | [] => [s]
  | page :: rest => s :: sweepStates resp rest (sweepStep (resp page) page s)

/-- `range(start_page, stop_page)`. -/
def sweepRange (startPage stopPage : Nat) : List Nat :=
  (List.range (stopPage - startPage)).map (fun i => startPage + i)

/-- `start_page = 0 if highest_page_checked >= total_pages else
    highest_page_checked`. -/
def startPageOf (hpc totalPages : Nat) : Nat :=
  if totalPages ≤ hpc then 0 else hpc

/-- Merge of the records found on the initial page-0 response. -/
def mergePage0 (page0 : PlayersPage) (s : CacheSnapshot) : CacheSnapshot :=
  match page0.embeddedPlayers with
  | some pl => { s with players := mergePlayers s.players pl }
  | none => s

/-- The dedicated page-0 freshness pass, run only when `start_page > 0`:
    merge on 200 with an embedded list, otherwise do nothing. -/
def freshPass (startPage : Nat) (resp : SweepResponse) (s : CacheSnapshot) :
    CacheSnapshot :=
  if 0 < startPage then
    match resp with
    | SweepResponse.ok (some pl) => { s with players := mergePlayers s.players pl }
    | _ => s
  else s

/-- Result of one cycle: the in-memory state afterwards, and the snapshot
    written by `save_cache` (none when the cycle returned before saving). -/
structure UpdateOutcome where
  final : CacheSnapshot
  persisted : Option CacheSnapshot
deriving Repr, DecidableEq

/-- Cycle end: stamp `last_update`, save, then
    `if highest_page_checked >= total_pages: highest_page_checked =
    total_pages`. The save happens before the reset, so the persisted
    snapshot carries the pre-reset tracker. -/
def finishCycle (totalPages : Nat) (now : String) (s : CacheSnapshot) :
    UpdateOutcome :=
  if totalPages ≤ s.highestPageChecked then
    ⟨{ s with lastUpdate := some now, highestPageChecked := totalPages },
     some { s with lastUpdate := some now }⟩
  else ⟨{ s with lastUpdate := some now }, some { s with lastUpdate := some now }⟩

/-- The sweep's start page for this cycle (computed after the page-0 merge,
    which never changes the tracker). -/
def cycleStartPage (page0 : PlayersPage) (s : CacheSnapshot) : Nat :=
  startPageOf (mergePage0 page0 s).highestPageChecked page0.totalPages

/-- The sweep's stop page:
    `min(total_pages, start_page + max_pages_per_update)`. -/
def cycleStopPage (m : Nat) (page0 : PlayersPage) (s : CacheSnapshot) : Nat :=
  min page0.totalPages (cycleStartPage page0 s + m)

/-- `max_pages_per_update = 50` in the source. -/
def max_pages_per_update : Nat := 50

/-- One `update_cache` cycle, parametrised by the page bound `m`
    (the source fixes `m = max_pages_per_update`). An initial fetch that
    fails or lacks the page object returns without touching or saving state;
    otherwise: merge page 0, pick the start page, run the freshness pass,
    sweep, stamp and save, and apply the completed-sweep reset. -/
def update_cache (m : Nat) (up : CrawlUpstream) (now : String)
    (s0 : CacheSnapshot) : UpdateOutcome :=
  match up.initResp with
  | InitResponse.badStatus => ⟨s0, none⟩
  | InitResponse.malformed => ⟨s0, none⟩
  | InitResponse.ok page0 =>
      finishCycle page0.totalPages now
        (runSweep up.sweepResp
          (sweepRange (cycleStartPage page0 s0) (cycleStopPage m page0 s0))
          (freshPass (cycleStartPage page0 s0) up.freshResp (mergePage0 page0 s0)))

/-- The values taken by `highest_page_checked` over one cycle: at the start
    of the sweep, after each swept page, and after the end-of-cycle reset. -/
def cycleHpcTrace (m : Nat) (up : CrawlUpstream) (now : String)
    (s0 : CacheSnapshot) : List Nat :=
  match up.initResp with
  | InitResponse.badStatus => [s0.highestPageChecked]
  | InitResponse.malformed => [s0.highestPageChecked]
  | InitResponse.ok page0 =>
      ((sweepStates up.sweepResp
          (sweepRange (cycleStartPage page0 s0) (cycleStopPage m page0 s0))
          (freshPass (cycleStartPage page0 s0) up.freshResp
            (mergePage0 page0 s0))).map
        (fun t => t.highestPageChecked))
        ++ [(update_cache m up now s0).final.highestPageChecked]

/-! ### Lookup resolver (`MyClient.search_player_by_name`) -/

/-- Outcome of the one remote `findByName` request: 200 with a well-formed
    body containing an id; 200 with a body that is not a dict or lacks an id
    (also covers a body whose parse raised); a non-200 status; or a network
    error. -/
inductive SearchApiResult where
  | okValid (p : Player)
  | okInvalid
  | badStatus (code : Nat)
  | netError
deriving Repr, DecidableEq

/-- The in-memory scan: first cached player whose name, lowercased, equals
    the lowercased query (entries without a string name are skipped). -/
def findByNameInCache (ps : List (String × Player)) (nameLower : String) :
    Option Player :=
  ps.findSome? (fun q =>
    match q.snd.name with
    | some n => if n.toLower == nameLower then some q.snd else none
    | none => none)

/-- Result of a lookup: the returned player (or not-found), the cache
    afterwards, and whether `save_cache` ran. -/
structure SearchOutcome where
  result : Option Player
  players : List (String × Player)
  savedCache : Bool
deriving Repr, DecidableEq

/-- `search_player_by_name`: reject a falsy name; scan the cache (only when
    enabled and non-empty); on a miss issue the single remote search, and
    only a 200 with a well-formed id-bearing body is cached (when enabled),
    saved and returned — every other outcome is not-found with the cache
    untouched. -/
def search_player_by_name (cacheEnabled : Bool) (ps : List (String × Player))
    (name : String) (remote : SearchApiResult) : SearchOutcome :=
  if name == "" then ⟨none, ps, false⟩
  else
    match (if cacheEnabled && !ps.isEmpty then findByNameInCache ps name.toLower
           else none) with
    | some p => ⟨some p, ps, false⟩
    | none =>
        match remote with
        | SearchApiResult.okValid p =>
            if cacheEnabled then ⟨some p, upsert ps p.id p, true⟩
            else ⟨some p, ps, false⟩
        | _ => ⟨none, ps, false⟩

/-! ### Cursor-following aggregator (`buyorders` / `sales` fetch loop) -/

/-- One raw listing entry as found in a page body: `type`, `price`,
    `quantity` and `ownerId` keys, each possibly absent with the defaults the
    code applies (`"Unknown"`, `0`, `0`, `None`). The price is kept as the
    integer the code's `round` produces. -/
structure RawItem where
  itemType : Option String
  price : Int
  quantity : Nat
  ownerId : Option String
deriving Repr, DecidableEq

/-- The normalized item appended to `all_items`. -/
structure ListedItem where
  material : String
  price : Int
  quantity : Nat
  ownerId : Option String
deriving Repr, DecidableEq

/-- `{"material": type or "Unknown", "price": round(price), "quantity":
    quantity, "ownerId": ownerId}`. -/
def toListedItem (r : RawItem) : ListedItem :=
  ⟨r.itemType.getD "Unknown", r.price, r.quantity, r.ownerId⟩

/-- The client-side filter: skip an item iff both filters are active and its
    uppercased type differs from the uppercased item filter. -/
def keepItem (filteredByItem : Bool) (itemUpper : Option String)
    (r : RawItem) : Bool :=
  match filteredByItem, itemUpper with
  | true, some iu => (r.itemType.getD "Unknown").toUpper == iu
  | _, _ => true

/-- The `_embedded` object of a listing page: either or both of the
    `market_buyorders` / `market_sales` keys may be present (a present key
    may hold an empty list). -/
structure EmbeddedKeys where
  buyordersKey : Option (List RawItem)
  salesKey : Option (List RawItem)
deriving Repr, DecidableEq

/-- A 200 listing page body: the optional `_embedded` object and the
    optional `_links.next.href` value. -/
structure PageBody where
  embedded : Option EmbeddedKeys
  nextLink : Option String
deriving Repr, DecidableEq

/-- Outcome of one `session.get` in the aggregation loop. -/
inductive PageResponse where
  | ok (body : PageBody)
  | rateLimited
  | otherStatus (code : Nat)
  | netError
deriving Repr, DecidableEq

/-- Item-list extraction: the command's own key is tested first with `in`
    (presence, not non-emptiness), then the other key, else the empty list.
    `primaryIsBuyorders = true` is the `buyorders` command's order,
    `false` the `sales` command's. -/
def extractItems (primaryIsBuyorders : Bool) (body : PageBody) : List RawItem :=
  match body.embedded with
  | none => []
  | some e =>
      if primaryIsBuyorders then
        match e.buyordersKey with
        | some l => l
        | none => e.salesKey.getD []
      else
        match e.salesKey with
        | some l => l
        | none => e.buyordersKey.getD []

/-- `max_retries = 3` in both commands. -/
def max_retries : Nat := 3
/-- `max_pages_to_fetch = 200` in both commands. -/
def max_pages_to_fetch : Nat := 200
/-- `max_items = 2000` in both commands. -/
def max_items : Nat := 2000

/-- Loop variables of the fetch loop. The next-URL rewriting (absolute-URL
    joining and the size=200 parameter) is kept abstract: `nextUrl` holds the
    link value, which no property here inspects beyond identity. -/
structure LoopState where
  nextUrl : Option String
  retryCount : Nat
  pagesRetrieved : Nat
  items : List ListedItem
deriving Repr, DecidableEq

/-- Why the loop stopped on a path that still delivers `all_items` to the
    rendering code: no next link, one of the two unfiltered ceilings, or the
    `while` guard failing after `max_retries` consecutive 429 responses. -/
inductive StopReason where
  | noNextLink
  | pageCeiling
  | itemCeiling
  | retriesExhausted
deriving Repr, DecidableEq

/-- Result of the fetch loop: `delivered` — control falls through to the
    rendering code with the collected items; `abortedError` — an error
    message is sent and the command returns, delivering nothing; `starved`
    marks inputs shorter than the loop's demand (never a program
    behaviour). -/
inductive FetchResult where
  | delivered (items : List ListedItem) (reason : StopReason)
  | abortedError
  | starved (st : LoopState)
deriving Repr, DecidableEq

/-- One loop iteration either continues with a new state or exits. -/
inductive StepResult where
  | more (st : LoopState)
  | done (r : FetchResult)
deriving Repr, DecidableEq

/-- `not item and not buyer` (resp. `not item and not seller`). -/
def isUnfiltered (itemFilter : Option String) (ownerFilter : Bool) : Bool :=
  itemFilter.isNone && !ownerFilter

/-- Items a 200 page contributes to `all_items`: extract, apply the
    client-side type filter (active only when both filters were given),
    normalize. -/
def pageNewItems (itemFilter : Option String) (ownerFilter : Bool)
    (primaryIsBuyorders : Bool) (body : PageBody) : List ListedItem :=
  ((extractItems primaryIsBuyorders body).filter
      (keepItem (ownerFilter && itemFilter.isSome)
        (itemFilter.map String.toUpper))).map
    toListedItem

/-- One iteration of `while next_url and retry_count < max_retries`:
    on 200 reset the retry counter, bump the page count, append the page's
    items, test the two unfiltered-only ceilings, then follow or end on the
    next link; on 429 bump the counter and re-try the same URL while the
    guard still holds, else fall out of the loop (still delivering); on any
    other status or a client error, retry while
    `retry_count < max_retries - 1`, else send the error and return. -/
def fetchStep (primaryIsBuyorders : Bool) (itemFilter : Option String)
    (ownerFilter : Bool) (resp : PageResponse) (st : LoopState) : StepResult :=
  match resp with
  | PageResponse.ok body =>
      let st1 : LoopState :=
        { st with retryCount := 0,
                  pagesRetrieved := st.pagesRetrieved + 1,
                  items := st.items ++
                    pageNewItems itemFilter ownerFilter primaryIsBuyorders body }
      if isUnfiltered itemFilter ownerFilter &&
          decide (max_pages_to_fetch ≤ st1.pagesRetrieved) then
        StepResult.done (FetchResult.delivered st1.items StopReason.pageCeiling)
      else if decide (max_items ≤ st1.items.length) &&
          isUnfiltered itemFilter ownerFilter then
        StepResult.done (FetchResult.delivered st1.items StopReason.itemCeiling)
      else
        match body.nextLink with
        | some url => StepResult.more { st1 with nextUrl := some url }
        | none =>
            StepResult.done (FetchResult.delivered st1.items StopReason.noNextLink)
  | PageResponse.rateLimited =>
      if st.retryCount + 1 < max_retries then
        StepResult.more { st with retryCount := st.retryCount + 1 }
      else
        StepResult.done (FetchResult.delivered st.items StopReason.retriesExhausted)
  | PageResponse.otherStatus _ =>
      if st.retryCount < max_retries - 1 then
        StepResult.more { st with retryCount := st.retryCount + 1 }
      else StepResult.done FetchResult.abortedError
  | PageResponse.netError =>
      if st.retryCount < max_retries - 1 then
        StepResult.more { st with retryCount := st.retryCount + 1 }
      else StepResult.done FetchResult.abortedError

/-- The fetch loop, consuming one response per `session.get`. -/
def fetchLoop (primaryIsBuyorders : Bool) (itemFilter : Option String)
    (ownerFilter : Bool) : List PageResponse → LoopState → FetchResult
  | [], st => FetchResult.starved st
  | resp :: rest, st =>
      match fetchStep primaryIsBuyorders itemFilter ownerFilter resp st with
      | StepResult.more st1 =>
          fetchLoop primaryIsBuyorders itemFilter ownerFilter rest st1
      | StepResult.done res => res

/-- Loop entry: the endpoint URL chosen from the filters, zero counters,
    no items. -/
def initialState (url : String) : LoopState := ⟨some url, 0, 0, []⟩

/-- A whole aggregation run. -/
def runFetch (primaryIsBuyorders : Bool) (itemFilter : Option String)
    (ownerFilter : Bool) (url : String) (responses : List PageResponse) :
    FetchResult :=
  fetchLoop primaryIsBuyorders itemFilter ownerFilter responses (initialState url)

/-- Whether a run ended through the page or item ceiling. -/
def stoppedByCeiling : FetchResult → Bool
  | FetchResult.delivered _ StopReason.pageCeiling => true
  | FetchResult.delivered _ StopReason.itemCeiling => true
  | _ => false

/-- The stop reason of a delivering run, if any. -/
def stopReasonOf : FetchResult → Option StopReason
  | FetchResult.delivered _ r => some r
  | _ => none

/-! ### Batch seller-name resolution block -/

/-- Outcome of one `GET /players/{id}`: 200 with a parsed body, or anything
    else (non-200 status or a raised exception). -/
inductive ByIdResult where
  | okPlayer (p : Player)
  | failed
deriving Repr, DecidableEq

/-- `seller_id in cache.players` and the cached record carries a `"name"`. -/
def cacheName (ps : List (String × Player)) (sid : String) : Option String :=
  match lookupPlayer ps sid with
  | some p => p.name
  | none => none

/-- State of the seller-lookup block: the name map built so far, the cache,
    the ids actually fetched remotely, and how many times `save_cache` ran. -/
structure ResolveOutcome where
  names : List (String × String)
  players : List (String × Player)
  lookedUp : List String
  savesCount : Nat
deriving Repr, DecidableEq

/-- One remote seller lookup: on 200 with a named body, record the name,
    cache the record under the looked-up id and save immediately; any other
    outcome only consumes the attempt. -/
def resolveStep (remote : String → ByIdResult) (acc : ResolveOutcome)
    (sid : String) : ResolveOutcome :=
  match remote sid with
  | ByIdResult.okPlayer p =>
      match p.name with
      | some n =>
          { names := acc.names ++ [(sid, n)],
            players := upsert acc.players sid p,
            lookedUp := acc.lookedUp ++ [sid],
            savesCount := acc.savesCount + 1 }
      | none => { acc with lookedUp := acc.lookedUp ++ [sid] }
  | ByIdResult.failed => { acc with lookedUp := acc.lookedUp ++ [sid] }

/-- The ids left in `seller_ids` after the cache pass removed the hits. -/
def cacheMisses (ps : List (String × Player)) (sellerIds : List String) :
    List String :=
  sellerIds.filter (fun sid => !(cacheName ps sid).isSome)

/-- The seller-lookup block: serve every cached name without a remote call,
    then fetch at most `min(5, len(misses))` of the missing ids. -/
def resolve_seller_names (ps : List (String × Player)) (sellerIds : List String)
    (remote : String → ByIdResult) : ResolveOutcome :=
  ((cacheMisses ps sellerIds).take (min 5 (cacheMisses ps sellerIds).length)).foldl
    (resolveStep remote)
    { names := sellerIds.filterMap
        (fun sid => (cacheName ps sid).map (fun n => (sid, n))),
      players := ps,
      lookedUp := [],
      savesCount := 0 }

/-- Whether the remote lookup of `sid` would succeed with a named record. -/
def resolvedOk (remote : String → ByIdResult) (sid : String) : Bool :=
  match remote sid with
  | ByIdResult.okPlayer p => p.name.isSome
  | ByIdResult.failed => false

/-- The name-map entry one remote lookup of `sid` contributes, if any. -/
def resolvedName (remote : String → ByIdResult) (sid : String) :
    Option (String × String) :=
  match remote sid with
  | ByIdResult.okPlayer p => p.name.map (fun n => (sid, n))
  | ByIdResult.failed => none

/-! ### Sorting (`sort_items` closure of both commands) -/

/-- `sort_items(mode)`: always start from a fresh copy of `all_items`; the
    two price modes sort the copy (Python's stable sort, with `reverse=True`
    for the descending mode); every other mode keeps the original order. -/
def sort_items (allItems : List ListedItem) (mode : String) : List ListedItem :=
  if mode == "price_low_high" then
    allItems.mergeSort (fun a b => decide (a.price ≤ b.price))
  else if mode == "price_high_low" then
    allItems.mergeSort (fun a b => decide (b.price ≤ a.price))
  else allItems

/-- The paging/sorting session the UI callbacks share: the collected list,
    the currently displayed list and the mode. -/
structure AggSession where
  allItems : List ListedItem
  sortedItems : List ListedItem
  sortMode : String
deriving Repr, DecidableEq

/-- Effect of picking a sort mode: recompute `sorted_items` from
    `all_items`; the collected list itself is never touched. -/
def applySort (s : AggSession) (mode : String) : AggSession :=
  { allItems := s.allItems, sortedItems := sort_items s.allItems mode,
    sortMode := mode }

/-! ### Concrete fixtures used by witnesses and counterexamples -/

/-- Digit character for `n % 10`. -/
def natChar (n : Nat) : Char := Char.ofNat (48 + n % 10)

/-- Two-digit decimal id string (distinct for `n < 100`). -/
def mkPlayerId (n : Nat) : String := String.mk [natChar (n / 10), natChar n]

/-- The n-th record of the example scenario. -/
def mkPlayer (n : Nat) : Player := ⟨mkPlayerId n, some (mkPlayerId n)⟩

/-- Twenty distinct records for scenario page `page`. -/
def pagePlayers (page : Nat) : List Player :=
  (List.range 20).map (fun i => mkPlayer (20 * page + i))

/-- Example-scenario upstream: 3 pages of 20 records each, every fetch
    succeeding. -/
def upstreamC4 : CrawlUpstream :=
  ⟨InitResponse.ok ⟨3, 60, some (pagePlayers 0)⟩,
   SweepResponse.ok (some (pagePlayers 0)),
   fun page => SweepResponse.ok (some (pagePlayers page))⟩

/-- Upstream reporting 3 total pages, with empty record lists everywhere. -/
def upstreamSmall : CrawlUpstream :=
  ⟨InitResponse.ok ⟨3, 60, some []⟩, SweepResponse.ok none,
   fun _ => SweepResponse.ok (some [])⟩

/-- A store loaded with the tracker above the upstream's current total-page
    count (10 versus 3). -/
def snapHigh : CacheSnapshot := ⟨[], none, 10⟩

/-- An empty store with tracker zero. -/
def snapEmpty : CacheSnapshot := ⟨[], none, 0⟩

/-- The record the remote exact-name search returns in the lookup example. -/
def fooPlayer : Player := ⟨"1", some "Foo"⟩

/-- Batch-resolver witness cache: one id cached with a name. -/
def cacheW8 : List (String × Player) := [("hit1", ⟨"hit1", some "Alice"⟩)]

/-- Batch-resolver witness remote: only id `m1` resolves, with a name. -/
def remoteW8 : String → ByIdResult :=
  fun sid => if sid == "m1" then ByIdResult.okPlayer ⟨"m1", some "Bob"⟩
             else ByIdResult.failed

/-- Batch-resolver witness owner ids: one hit, one resolvable miss, one
    failing miss. -/
def idsW8 : List String := ["hit1", "m1", "m2"]

/-- A page carrying one item and a next link. -/
def pageOneItem : PageBody :=
  ⟨some ⟨some [⟨some "DIAMOND", 5, 3, some "o1"⟩], none⟩, some "page2"⟩

/-- A page whose first embedded key is present but empty while the second
    key is present and non-empty. -/
def pageMismatch : PageBody :=
  ⟨some ⟨some [], some [⟨some "IRON", 2, 1, none⟩]⟩, none⟩

/-- An empty page with a next link. -/
def pageEmptyNext : PageBody := ⟨some ⟨some [], none⟩, some "again"⟩

/-- A page carrying 1000 items under the sales key, with a next link. -/
def pageThousand : PageBody :=
  ⟨some ⟨none, some (List.replicate 1000 ⟨some "A", 1, 1, none⟩)⟩, some "again"⟩

/-! ### Helper lemmas about the cache -/

lemma lookupPlayer_cons_eq (q : String × Player) (rest : List (String × Player))
    (pid : String) (h : (q.fst == pid) = true) :
    lookupPlayer (q :: rest) pid = some q.snd := by
  simp [lookupPlayer, List.find?_cons, h]

lemma lookupPlayer_cons_ne (q : String × Player) (rest : List (String × Player))
    (pid : String) (h : (q.fst == pid) = false) :
    lookupPlayer (q :: rest) pid = lookupPlayer rest pid := by
  simp [lookupPlayer, List.find?_cons, h]

lemma lookupPlayer_upsert_self (ps : List (String × Player)) (pid : String)
    (p : Player) : lookupPlayer (upsert ps pid p) pid = some p := by
  induction ps with
  | nil => simp [upsert, lookupPlayer]
  | cons q rest ih =>
      by_cases h : (q.fst == pid) = true
      · simp only [upsert, h, if_true]
        simp [lookupPlayer, List.find?_cons]
      · have h2 : (q.fst == pid) = false := by
          cases hb : q.fst == pid
          · rfl
          · exact absurd hb h
        simp only [upsert, h2, Bool.false_eq_true, if_false]
        rw [lookupPlayer_cons_ne _ _ _ h2]
        exact ih

lemma lookupPlayer_upsert_other (ps : List (String × Player)) (pid k : String)
    (p : Player) (hne : k ≠ pid) :
    lookupPlayer (upsert ps pid p) k = lookupPlayer ps k := by
  have hpk : ((pid : String) == k) = false := by
    cases hb : pid == k
    · rfl
    · exact absurd (by simpa using hb) (Ne.symm hne)
  induction ps with
  | nil =>
      simp only [upsert]
      rw [lookupPlayer_cons_ne _ _ _ hpk]
  | cons q rest ih =>
      by_cases h : (q.fst == pid) = true
      · simp only [upsert, h, if_true]
        rw [lookupPlayer_cons_ne _ _ _ hpk]
        have hqk : (q.fst == k) = false := by
          have hq : q.fst = pid := by simpa using h
          cases hb : q.fst == k
          · rfl
          · exact absurd (by simpa [hq] using hb) (Ne.symm hne)
        rw [lookupPlayer_cons_ne _ _ _ hqk]
      · have h2 : (q.fst == pid) = false := by
          cases hb : q.fst == pid
          · rfl
          · exact absurd hb h
        simp only [upsert, h2, Bool.false_eq_true, if_false]
        by_cases hq : (q.fst == k) = true
        · rw [lookupPlayer_cons_eq _ _ _ hq, lookupPlayer_cons_eq _ _ _ hq]
        · have hq2 : (q.fst == k) = false := by
            cases hb : q.fst == k
            · rfl
            · exact absurd hb hq
          rw [lookupPlayer_cons_ne _ _ _ hq2, lookupPlayer_cons_ne _ _ _ hq2]
          exact ih

/-! ### Helper lemmas about the crawler sweep -/

lemma sweepStep_hpc_le (resp : SweepResponse) (page : Nat) (s : CacheSnapshot) :
    s.highestPageChecked ≤ (sweepStep resp page s).highestPageChecked := by
  cases resp with
  | failed => simp [sweepStep]
  | ok o =>
      cases o with
      | none => simp [sweepStep]
      | some pl =>
          simp only [sweepStep]
          omega

lemma sweepStep_hpc_le_max (resp : SweepResponse) (page : Nat)
    (s : CacheSnapshot) :
    (sweepStep resp page s).highestPageChecked ≤
      max s.highestPageChecked (page + 1) := by
  cases resp with
  | failed => simp [sweepStep]
  | ok o =>
      cases o with
      | none => simp [sweepStep]
      | some pl => simp only [sweepStep]; omega

lemma runSweep_hpc_mono (resp : Nat → SweepResponse) (pages : List Nat)
    (s : CacheSnapshot) :
    s.highestPageChecked ≤ (runSweep resp pages s).highestPageChecked := by
  induction pages generalizing s with
  | nil => simp [runSweep]
  | cons p rest ih =>
      simp only [runSweep, List.foldl_cons]
      exact le_trans (sweepStep_hpc_le _ _ _) (ih _)

lemma runSweep_hpc_of_mem (resp : Nat → SweepResponse) (pages : List Nat)
    (s : CacheSnapshot) (q : Nat) (pl : List Player) (hq : q ∈ pages)
    (hr : resp q = SweepResponse.ok (some pl)) :
    q + 1 ≤ (runSweep resp pages s).highestPageChecked := by
  induction pages generalizing s with
  | nil => cases hq
  | cons p rest ih =>
      rcases List.mem_cons.mp hq with hq1 | hq2
      · subst hq1
        simp only [runSweep, List.foldl_cons]
        refine le_trans ?_ (runSweep_hpc_mono resp rest _)
        rw [hr]
        simp only [sweepStep]
        omega
      · simp only [runSweep, List.foldl_cons]
        exact ih _ hq2

lemma runSweep_hpc_bound (resp : Nat → SweepResponse) (pages : List Nat)
    (s : CacheSnapshot) (B : Nat) (hs : s.highestPageChecked ≤ B)
    (hp : ∀ p ∈ pages, p + 1 ≤ B) :
    (runSweep resp pages s).highestPageChecked ≤ B := by
  induction pages generalizing s with
  | nil => simpa [runSweep] using hs
  | cons p rest ih =>
      simp only [runSweep, List.foldl_cons]
      refine ih _ ?_ (fun x hx => hp x (List.mem_cons_of_mem _ hx))
      have h1 := sweepStep_hpc_le_max (resp p) p s
      have h2 := hp p (List.mem_cons_self _ _)
      omega

lemma sweepStates_head (resp : Nat → SweepResponse) (pages : List Nat)
    (s : CacheSnapshot) : (sweepStates resp pages s).head? = some s := by
  cases pages <;> rfl

lemma sweepStates_chain (resp : Nat → SweepResponse) (pages : List Nat)
    (s : CacheSnapshot) :
    List.Chain' (fun a b : CacheSnapshot =>
        a.highestPageChecked ≤ b.highestPageChecked)
      (sweepStates resp pages s) := by
  induction pages generalizing s with
  | nil => simp [sweepStates]
  | cons p rest ih =>
      simp only [sweepStates]
      refine List.chain'_cons'.mpr ⟨?_, ih _⟩
      intro t ht
      rw [sweepStates_head, Option.mem_def, Option.some.injEq] at ht
      subst ht
      exact sweepStep_hpc_le _ _ _

lemma sweepStates_bound (resp : Nat → SweepResponse) (pages : List Nat)
    (s : CacheSnapshot) (B : Nat) (hs : s.highestPageChecked ≤ B)
    (hp : ∀ p ∈ pages, p + 1 ≤ B) :
    ∀ t ∈ sweepStates resp pages s, t.highestPageChecked ≤ B := by
  induction pages generalizing s with
  | nil =>
      intro t ht
      simp only [sweepStates, List.mem_singleton] at ht
      subst ht; exact hs
  | cons p rest ih =>
      intro t ht
      simp only [sweepStates, List.mem_cons] at ht
      rcases ht with ht1 | ht2
      · subst ht1; exact hs
      · refine ih _ ?_ (fun x hx => hp x (List.mem_cons_of_mem _ hx)) t ht2
        have h1 := sweepStep_hpc_le_max (resp p) p s
        have h2 := hp p (List.mem_cons_self _ _)
        omega

lemma sweepStates_getLastD (resp : Nat → SweepResponse) (pages : List Nat)
    (s d : CacheSnapshot) :
    (sweepStates resp pages s).getLastD d = runSweep resp pages s := by
  induction pages generalizing s d with
  | nil => simp [sweepStates, runSweep]
  | cons p rest ih =>
      simp only [sweepStates, runSweep, List.foldl_cons, List.getLastD_cons]
      exact ih _ _

lemma mem_sweepRange (a b p : Nat) : p ∈ sweepRange a b ↔ a ≤ p ∧ p < b := by
  unfold sweepRange
  simp only [List.mem_map, List.mem_range]
  constructor
  · rintro ⟨i, hi, rfl⟩; omega
  · rintro ⟨h1, h2⟩; exact ⟨p - a, by omega, by omega⟩

lemma mergePage0_hpc (page0 : PlayersPage) (s : CacheSnapshot) :
    (mergePage0 page0 s).highestPageChecked = s.highestPageChecked := by
  unfold mergePage0
  cases page0.embeddedPlayers <;> rfl

lemma freshPass_hpc (startPage : Nat) (resp : SweepResponse)
    (s : CacheSnapshot) :
    (freshPass startPage resp s).highestPageChecked = s.highestPageChecked := by
  unfold freshPass
  split
  · cases resp with
    | failed => rfl
    | ok o => cases o <;> rfl
  · rfl

/-! ### Helper lemmas about the seller-lookup fold -/

lemma resolveStep_lookedUp (remote : String → ByIdResult) (acc : ResolveOutcome)
    (sid : String) :
    (resolveStep remote acc sid).lookedUp = acc.lookedUp ++ [sid] := by
  cases hr : remote sid with
  | okPlayer p =>
      cases hn : p.name with
      | some n => simp [resolveStep, hr, hn]
      | none => simp [resolveStep, hr, hn]
  | failed => simp [resolveStep, hr]

lemma foldl_resolveStep_lookedUp (remote : String → ByIdResult)
    (l : List String) (acc : ResolveOutcome) :
    (l.foldl (resolveStep remote) acc).lookedUp = acc.lookedUp ++ l := by
  induction l generalizing acc with
  | nil => simp
  | cons sid rest ih =>
      simp only [List.foldl_cons]
      rw [ih, resolveStep_lookedUp]
      simp

lemma resolveStep_names (remote : String → ByIdResult) (acc : ResolveOutcome)
    (sid : String) :
    (resolveStep remote acc sid).names =
      acc.names ++ (resolvedName remote sid).toList := by
  cases hr : remote sid with
  | okPlayer p =>
      cases hn : p.name with
      | some n => simp [resolveStep, resolvedName, hr, hn]
      | none => simp [resolveStep, resolvedName, hr, hn]
  | failed => simp [resolveStep, resolvedName, hr]

lemma foldl_resolveStep_names (remote : String → ByIdResult)
    (l : List String) (acc : ResolveOutcome) :
    (l.foldl (resolveStep remote) acc).names =
      acc.names ++ l.filterMap (resolvedName remote) := by
  induction l generalizing acc with
  | nil => simp
  | cons sid rest ih =>
      simp only [List.foldl_cons, List.filterMap_cons]
      rw [ih, resolveStep_names]
      cases h : resolvedName remote sid <;> simp [h]

lemma resolveStep_saves (remote : String → ByIdResult) (acc : ResolveOutcome)
    (sid : String) :
    (resolveStep remote acc sid).savesCount =
      acc.savesCount + (if resolvedOk remote sid then 1 else 0) := by
  cases hr : remote sid with
  | okPlayer p =>
      cases hn : p.name with
      | some n => simp [resolveStep, resolvedOk, hr, hn]
      | none => simp [resolveStep, resolvedOk, hr, hn]
  | failed => simp [resolveStep, resolvedOk, hr]

lemma foldl_resolveStep_saves (remote : String → ByIdResult)
    (l : List String) (acc : ResolveOutcome) :
    (l.foldl (resolveStep remote) acc).savesCount =
      acc.savesCount + (l.filter (resolvedOk remote)).length := by
  induction l generalizing acc with
  | nil => simp
  | cons sid rest ih =>
      simp only [List.foldl_cons, List.filter_cons]
      rw [ih, resolveStep_saves]
      cases h : resolvedOk remote sid <;> simp [h] <;> omega

lemma resolveStep_players_keep (remote : String → ByIdResult)
    (acc : ResolveOutcome) (sid1 sid : String) (p : Player)
    (hrem : remote sid = ByIdResult.okPlayer p)
    (hl : lookupPlayer acc.players sid = some p) :
    lookupPlayer (resolveStep remote acc sid1).players sid = some p := by
  cases h1 : remote sid1 with
  | failed => simpa [resolveStep, h1] using hl
  | okPlayer p1 =>
      cases hn : p1.name with
      | none => simpa [resolveStep, h1, hn] using hl
      | some n =>
          simp only [resolveStep, h1, hn]
          by_cases he : sid = sid1
          · subst he
            rw [hrem] at h1
            cases h1
            exact lookupPlayer_upsert_self _ _ _
          · rw [lookupPlayer_upsert_other _ _ _ _ he]
            exact hl

lemma foldl_resolveStep_players_keep (remote : String → ByIdResult)
    (l : List String) (acc : ResolveOutcome) (sid : String) (p : Player)
    (n : String) (hrem : remote sid = ByIdResult.okPlayer p)
    (hn : p.name = some n)
    (h0 : sid ∈ l ∨ lookupPlayer acc.players sid = some p) :
    lookupPlayer ((l.foldl (resolveStep remote) acc).players) sid = some p := by
  induction l generalizing acc with
  | nil =>
      rcases h0 with h | h
      · cases h
      · simpa using h
  | cons sid1 rest ih =>
      simp only [List.foldl_cons]
      refine ih _ ?_
      rcases h0 with h | h
      · rcases List.mem_cons.mp h with h1 | h1
        · subst h1
          right
          simp only [resolveStep, hrem, hn]
          exact lookupPlayer_upsert_self _ _ _
        · left; exact h1
      · right
        exact resolveStep_players_keep remote acc sid1 sid p hrem h

lemma fst_mem_resolvedName (remote : String → ByIdResult) (l : List String)
    (sid : String)
    (h : sid ∈ (l.filterMap (resolvedName remote)).map Prod.fst) :
    sid ∈ l ∧ resolvedOk remote sid = true := by
  obtain ⟨pair, hpair, hfst⟩ := List.mem_map.mp h
  obtain ⟨a, ha, hfa⟩ := List.mem_filterMap.mp hpair
  cases hr : remote a with
  | failed => simp [resolvedName, hr] at hfa
  | okPlayer p =>
      cases hnm : p.name with
      | none => simp [resolvedName, hr, hnm] at hfa
      | some nm =>
          simp only [resolvedName, hr, hnm, Option.map_some',
            Option.some.injEq] at hfa
          subst hfa
          have ha2 : a = sid := hfst
          subst ha2
          exact ⟨ha, by simp [resolvedOk, hr, hnm]⟩

lemma fst_mem_cachedNames (ps : List (String × Player)) (l : List String)
    (sid : String)
    (h : sid ∈ (l.filterMap
        (fun s0 => (cacheName ps s0).map (fun nm => (s0, nm)))).map Prod.fst) :
    (cacheName ps sid).isSome = true := by
  obtain ⟨pair, hpair, hfst⟩ := List.mem_map.mp h
  obtain ⟨a, ha, hfa⟩ := List.mem_filterMap.mp hpair
  cases hc : cacheName ps a with
  | none => rw [hc] at hfa; cases hfa
  | some nm =>
      rw [hc] at hfa
      simp only [Option.map_some'] at hfa
      cases hfa
      subst hfst
      simp [hc]

lemma cachedNames_length (ps : List (String × Player)) (l : List String) :
    (l.filterMap (fun sid => (cacheName ps sid).map (fun nm => (sid, nm)))).length
      = (l.filter (fun sid => (cacheName ps sid).isSome)).length := by
  induction l with
  | nil => rfl
  | cons a rest ih =>
      simp only [List.filterMap_cons, List.filter_cons]
      cases hc : cacheName ps a with
      | none => simpa [hc] using ih
      | some nm => simpa [hc] using ih

/-! ### Helper lemmas about the aggregation loop -/

lemma isUnfiltered_false_of_filter (itf : Option String) (ownf : Bool)
    (hf : itf.isSome = true ∨ ownf = true) :
    isUnfiltered itf ownf = false := by
  unfold isUnfiltered
  rcases hf with h | h
  · cases itf with
    | none => cases h
    | some v => rfl
  · subst h
    simp

lemma fetchStep_filtered_no_ceiling (pB : Bool) (itf : Option String)
    (ownf : Bool) (resp : PageResponse) (st : LoopState) (res : FetchResult)
    (hf : itf.isSome = true ∨ ownf = true)
    (hdone : fetchStep pB itf ownf resp st = StepResult.done res) :
    stoppedByCeiling res = false := by
  have hu := isUnfiltered_false_of_filter itf ownf hf
  cases resp with
  | ok body =>
      cases hnl : body.nextLink with
      | some url =>
          simp [fetchStep, hu, hnl] at hdone
      | none =>
          simp [fetchStep, hu, hnl] at hdone
          rw [← hdone]
          rfl
  | rateLimited =>
      simp only [fetchStep] at hdone
      split at hdone
      · simp at hdone
      · simp only [StepResult.done.injEq] at hdone
        rw [← hdone]
        rfl
  | otherStatus code =>
      simp only [fetchStep] at hdone
      split at hdone
      · simp at hdone
      · simp only [StepResult.done.injEq] at hdone
        rw [← hdone]
        rfl
  | netError =>
      simp only [fetchStep] at hdone
      split at hdone
      · simp at hdone
      · simp only [StepResult.done.injEq] at hdone
        rw [← hdone]
        rfl

lemma fetchLoop_filtered_no_ceiling (pB : Bool) (itf : Option String)
    (ownf : Bool) (rs : List PageResponse) (st : LoopState)
    (hf : itf.isSome = true ∨ ownf = true) :
    stoppedByCeiling (fetchLoop pB itf ownf rs st) = false := by
  induction rs generalizing st with
  | nil => rfl
  | cons r rest ih =>
      simp only [fetchLoop]
      cases hstep : fetchStep pB itf ownf r st with
      | more st1 => exact ih st1
      | done res =>
          exact fetchStep_filtered_no_ceiling pB itf ownf r st res hf hstep

lemma update_cache_eq_of_stop (m1 m2 : Nat) (up : CrawlUpstream) (now : String)
    (s0 : CacheSnapshot)
    (h : ∀ page0, up.initResp = InitResponse.ok page0 →
        cycleStopPage m1 page0 s0 = cycleStopPage m2 page0 s0) :
    update_cache m1 up now s0 = update_cache m2 up now s0 := by
  unfold update_cache
  cases hi : up.initResp with
  | badStatus => rfl
  | malformed => rfl
  | ok page0 => simp [h page0 hi]

/-! ### Claims -/

/-- Claim C1 (counterexample): a `buyorders`-style run that collects one item
    on a successful page and is then rate-limited `max_retries` consecutive
    times does NOT abort: the loop guard fails silently and the item from the
    earlier page is delivered to the caller, so partial data does reach the
    caller and no transient-failure abort is reported. -/
theorem claim_C1_counterexample :
    runFetch true none false "u0"
      [PageResponse.ok pageOneItem, PageResponse.rateLimited,
       PageResponse.rateLimited, PageResponse.rateLimited]
      = FetchResult.delivered [⟨"DIAMOND", 5, 3, some "o1"⟩]
          StopReason.retriesExhausted := by
  decide

/-- Claim C1 (amended): when `max_retries` consecutive 429 responses exhaust
    the retry bound the loop exits WITHOUT reporting an error, delivering the
    items collected on earlier successful pages; the all-or-nothing abort
    (error message sent, nothing delivered) happens only for non-429
    failures — other HTTP statuses and network errors — once the retry
    counter reaches `max_retries - 1`. -/
theorem claim_C1 (pB : Bool) (itf : Option String) (ownf : Bool)
    (st : LoopState) (h : st.retryCount = 0) :
    fetchLoop pB itf ownf
        [PageResponse.rateLimited, PageResponse.rateLimited,
         PageResponse.rateLimited] st
      = FetchResult.delivered st.items StopReason.retriesExhausted ∧
    fetchLoop pB itf ownf
        [PageResponse.otherStatus 500, PageResponse.otherStatus 500,
         PageResponse.otherStatus 500] st
      = FetchResult.abortedError ∧
    fetchLoop pB itf ownf
        [PageResponse.netError, PageResponse.netError, PageResponse.netError]
        st
      = FetchResult.abortedError := by
  refine ⟨?_, ?_, ?_⟩ <;> simp [fetchLoop, fetchStep, h, max_retries]

/-- Witness for C1 at a state already holding one collected item. -/
theorem claim_C1_witness :
    fetchLoop true none false
        [PageResponse.rateLimited, PageResponse.rateLimited,
         PageResponse.rateLimited]
        ⟨some "u1", 0, 1, [⟨"DIAMOND", 5, 3, none⟩]⟩
      = FetchResult.delivered [⟨"DIAMOND", 5, 3, none⟩]
          StopReason.retriesExhausted :=
  (claim_C1 true none false ⟨some "u1", 0, 1, [⟨"DIAMOND", 5, 3, none⟩]⟩ rfl).1

/-- Claim C2 (counterexample): N = 5 > max_retries = 3 consecutive 429
    responses — the run does not report an Aborted outcome; it completes the
    delivering path (here with no items collected). -/
theorem claim_C2_counterexample :
    runFetch true none false "u0" (List.replicate 5 PageResponse.rateLimited)
      = FetchResult.delivered [] StopReason.retriesExhausted := by
  decide

/-- Claim C2 (amended): given more than `max_retries` consecutive 429
    responses, the loop requests the same URL exactly `max_retries` times in
    total — the first attempt plus `max_retries - 1` backoff retries; the
    responses beyond the third are never requested — and then exits
    delivering the items collected so far instead of reporting an abort.
    Every 429 retry keeps the URL and collected items unchanged while
    incrementing the consecutive-retry counter, and a 200 response resets
    that counter to zero. -/
theorem claim_C2 :
    (∀ (pB : Bool) (itf : Option String) (ownf : Bool) (st : LoopState)
        (rest : List PageResponse), st.retryCount = 0 →
        fetchLoop pB itf ownf
            (List.replicate max_retries PageResponse.rateLimited ++ rest) st
          = FetchResult.delivered st.items StopReason.retriesExhausted) ∧
    (∀ (pB : Bool) (itf : Option String) (ownf : Bool) (st st1 : LoopState),
        fetchStep pB itf ownf PageResponse.rateLimited st
            = StepResult.more st1 →
        st1.nextUrl = st.nextUrl ∧ st1.items = st.items ∧
          st1.retryCount = st.retryCount + 1) ∧
    (∀ (pB : Bool) (itf : Option String) (ownf : Bool) (body : PageBody)
        (st st1 : LoopState),
        fetchStep pB itf ownf (PageResponse.ok body) st = StepResult.more st1 →
        st1.retryCount = 0) := by
  refine ⟨?_, ?_, ?_⟩
  · intro pB itf ownf st rest h
    show fetchLoop pB itf ownf
        (PageResponse.rateLimited :: PageResponse.rateLimited ::
          PageResponse.rateLimited :: rest) st
      = FetchResult.delivered st.items StopReason.retriesExhausted
    simp [fetchLoop, fetchStep, h, max_retries]
  · intro pB itf ownf st st1 hstep
    simp only [fetchStep] at hstep
    split at hstep
    · cases hstep
      exact ⟨rfl, rfl, rfl⟩
    · simp at hstep
  · intro pB itf ownf body st st1 hstep
    simp only [fetchStep] at hstep
    split at hstep
    · simp at hstep
    · split at hstep
      · simp at hstep
      · cases hnl : body.nextLink with
        | some url =>
            simp only [hnl, StepResult.more.injEq] at hstep
            rw [← hstep]
        | none => simp [hnl] at hstep

/-- Witness for C2: three rate-limit responses followed by further input the
    loop never requests, from the loop's initial state. -/
theorem claim_C2_witness :
    fetchLoop true none false
        (List.replicate max_retries PageResponse.rateLimited ++
          [PageResponse.netError])
        (initialState "u0")
      = FetchResult.delivered [] StopReason.retriesExhausted :=
  claim_C2.1 true none false (initialState "u0") [PageResponse.netError] rfl

set_option maxRecDepth 40000 in
/-- Claim C6: the `max_pages_to_fetch` and `max_items` ceilings stop the
    page-following loop only when neither the item filter nor the owner
    filter is active; with at least one filter the loop never stops through a
    ceiling (it runs until no next link, retry exhaustion, or an abort).
    Conversely, an unfiltered run does stop with the page ceiling after 200
    pages and with the item ceiling at 2000 items. -/
theorem claim_C6 :
    (∀ (pB : Bool) (itf : Option String) (ownf : Bool)
        (rs : List PageResponse) (st : LoopState),
        itf.isSome = true ∨ ownf = true →
        stoppedByCeiling (fetchLoop pB itf ownf rs st) = false) ∧
    stopReasonOf (runFetch true none false "u0"
        (List.replicate 200 (PageResponse.ok pageEmptyNext)))
      = some StopReason.pageCeiling ∧
    stopReasonOf (runFetch false none false "u0"
        (List.replicate 2 (PageResponse.ok pageThousand)))
      = some StopReason.itemCeiling := by
  refine ⟨?_, by decide, by decide⟩
  intro pB itf ownf rs st hf
  exact fetchLoop_filtered_no_ceiling pB itf ownf rs st hf

/-- Witness for C6: an owner-filtered run across 300 pages with next links is
    never stopped by a ceiling. -/
theorem claim_C6_witness :
    stoppedByCeiling (fetchLoop true none true
        (List.replicate 300 (PageResponse.ok pageEmptyNext))
        (initialState "u0")) = false :=
  claim_C6.1 true none true
    (List.replicate 300 (PageResponse.ok pageEmptyNext)) (initialState "u0")
    (Or.inr rfl)

/-- Claim C7 (counterexample): on a page whose first-checked embedded key
    (`market_buyorders` for the buyorders command) is present but maps to the
    empty list while the second key is present and non-empty, the code takes
    the EMPTY first list — the item under the second key is not used, so the
    run delivers nothing. -/
theorem claim_C7_counterexample :
    extractItems true pageMismatch = [] ∧
    runFetch true none false "u0" [PageResponse.ok pageMismatch]
      = FetchResult.delivered [] StopReason.noNextLink := by
  constructor
  · decide
  · decide

/-- Claim C7 (amended): extraction checks the two known embedded keys in a
    fixed order and takes the FIRST one that is PRESENT, regardless of
    emptiness (a present-but-empty first key shadows a non-empty second
    key); a body with neither key — or no `_embedded` object at all — is an
    empty page, and a 200 page can never produce the aborting path. -/
theorem claim_C7 :
    (∀ (b : Bool) (e : EmbeddedKeys) (nl : Option String),
        extractItems b ⟨some e, nl⟩ =
          (if b then e.buyordersKey.getD (e.salesKey.getD [])
           else e.salesKey.getD (e.buyordersKey.getD []))) ∧
    (∀ (b : Bool) (nl : Option String), extractItems b ⟨none, nl⟩ = []) ∧
    (∀ (b : Bool) (l : List RawItem) (nl : Option String),
        extractItems b ⟨some ⟨some [], some l⟩, nl⟩ = if b then [] else l) ∧
    (∀ (pB : Bool) (itf : Option String) (ownf : Bool) (body : PageBody)
        (st : LoopState),
        fetchStep pB itf ownf (PageResponse.ok body) st ≠
          StepResult.done FetchResult.abortedError) := by
  refine ⟨?_, ?_, ?_, ?_⟩
  · intro b e nl
    cases b <;> cases hB : e.buyordersKey <;> cases hS : e.salesKey <;>
      simp [extractItems, hB, hS]
  · intro b nl
    cases b <;> simp [extractItems]
  · intro b l nl
    cases b <;> simp [extractItems]
  · intro pB itf ownf body st hcontra
    simp only [fetchStep] at hcontra
    split at hcontra
    · simp at hcontra
    · split at hcontra
      · simp at hcontra
      · cases hnl : body.nextLink with
        | some url => simp [hnl] at hcontra
        | none => simp [hnl] at hcontra

/-- Witness for C7: a body with no `_embedded` object is an empty page. -/
theorem claim_C7_witness : extractItems true ⟨none, none⟩ = [] :=
  claim_C7.2.1 true none

/-- Claim C5: with no case-insensitive name match in the store and the
    remote exact-name search succeeding with a well-formed id-bearing
    record, `search_player_by_name` returns that record, the store afterwards
    contains it under its id, and the cache is persisted; on any other remote
    outcome (bad status, malformed body, network error) it returns not-found
    and leaves the store untouched. The embedding is a total function, so no
    exception escapes the resolver's boundary. -/
theorem claim_C5 (ps : List (String × Player)) (name : String)
    (remote : SearchApiResult) (hname : (name == "") = false)
    (hmiss : findByNameInCache ps name.toLower = none) :
    (∀ p, remote = SearchApiResult.okValid p →
        (search_player_by_name true ps name remote).result = some p ∧
        lookupPlayer (search_player_by_name true ps name remote).players p.id
            = some p ∧
        (search_player_by_name true ps name remote).savedCache = true) ∧
    ((∀ p, remote ≠ SearchApiResult.okValid p) →
        search_player_by_name true ps name remote = ⟨none, ps, false⟩) := by
  have hcached :
      (if true && !ps.isEmpty then findByNameInCache ps name.toLower
       else none) = none := by
    cases hE : ps.isEmpty
    · simpa [hE] using hmiss
    · simp [hE]
  constructor
  · intro p hp
    subst hp
    simp only [search_player_by_name, hname, Bool.false_eq_true, if_false,
      hcached]
    exact ⟨rfl, lookupPlayer_upsert_self _ _ _, rfl⟩
  · intro hne
    cases remote with
    | okValid p => exact absurd rfl (hne p)
    | okInvalid =>
        cases ps with
        | nil => simp [search_player_by_name, hname]
        | cons q qs => simp [search_player_by_name, hname, hmiss]
    | badStatus c =>
        cases ps with
        | nil => simp [search_player_by_name, hname]
        | cons q qs => simp [search_player_by_name, hname, hmiss]
    | netError =>
        cases ps with
        | nil => simp [search_player_by_name, hname]
        | cons q qs => simp [search_player_by_name, hname, hmiss]

/-- Witness for C5: the spec's example — empty store, remote search for
    `"foo"` returns the record with id 1 and name Foo. -/
theorem claim_C5_witness :
    (search_player_by_name true [] "foo"
        (SearchApiResult.okValid fooPlayer)).result = some fooPlayer ∧
    lookupPlayer (search_player_by_name true [] "foo"
        (SearchApiResult.okValid fooPlayer)).players "1" = some fooPlayer ∧
    (search_player_by_name true [] "foo"
        (SearchApiResult.okValid fooPlayer)).savedCache = true := by
  have h := (claim_C5 [] "foo" (SearchApiResult.okValid fooPlayer)
      (by decide) (by decide)).1 fooPlayer rfl
  exact h

/-- Claim C9: sorting always works on a fresh copy of the collected list —
    the collected list survives any sequence of sort selections unchanged,
    and selecting the default mode after a price sort (either direction, or
    any sequence of sorts) redisplays exactly the original upstream
    insertion order. -/
theorem claim_C9 (s : AggSession) (modes : List String) :
    (modes.foldl applySort s).allItems = s.allItems ∧
    (applySort (modes.foldl applySort s) "default").sortedItems
      = s.allItems ∧
    (applySort (applySort s "price_low_high") "default").sortedItems
      = s.allItems ∧
    (applySort (applySort s "price_high_low") "default").sortedItems
      = s.allItems := by
  have hall : ∀ (t : AggSession) (ms : List String),
      (ms.foldl applySort t).allItems = t.allItems := by
    intro t ms
    induction ms generalizing t with
    | nil => rfl
    | cons m rest ih => simpa [applySort] using ih _
  have hdef : ∀ (l : List ListedItem), sort_items l "default" = l := by
    intro l
    rfl
  refine ⟨hall s modes, ?_, ?_, ?_⟩
  · show sort_items (modes.foldl applySort s).allItems "default" = s.allItems
    rw [hdef, hall]
  · show sort_items (applySort s "price_low_high").allItems "default"
        = s.allItems
    rw [hdef]
    rfl
  · show sort_items (applySort s "price_high_low").allItems "default"
        = s.allItems
    rw [hdef]
    rfl

/-- Claim C8: the seller-lookup block makes no remote call for any id cached
    with a name, makes at most 5 remote calls in total, upserts into the
    cache and saves each successfully resolved record, and returns a name
    map holding at most the cache hits plus 5 newly resolved entries; ids
    beyond the bound, or whose remote lookup fails or lacks a name, are
    simply absent from the map. -/
theorem claim_C8 (ps : List (String × Player)) (sellerIds : List String)
    (remote : String → ByIdResult) :
    (resolve_seller_names ps sellerIds remote).lookedUp.length ≤ 5 ∧
    (∀ sid, (cacheName ps sid).isSome = true →
        sid ∉ (resolve_seller_names ps sellerIds remote).lookedUp) ∧
    (resolve_seller_names ps sellerIds remote).names.length ≤
      (sellerIds.filter (fun sid => (cacheName ps sid).isSome)).length + 5 ∧
    (∀ sid p n, sid ∈ (resolve_seller_names ps sellerIds remote).lookedUp →
        remote sid = ByIdResult.okPlayer p → p.name = some n →
        lookupPlayer (resolve_seller_names ps sellerIds remote).players sid
            = some p ∧
        (sid, n) ∈ (resolve_seller_names ps sellerIds remote).names) ∧
    (resolve_seller_names ps sellerIds remote).savesCount =
      ((resolve_seller_names ps sellerIds remote).lookedUp.filter
          (resolvedOk remote)).length ∧
    (∀ sid, (cacheName ps sid).isSome = false →
        (sid ∉ (resolve_seller_names ps sellerIds remote).lookedUp ∨
          resolvedOk remote sid = false) →
        sid ∉ (resolve_seller_names ps sellerIds remote).names.map
          Prod.fst) := by
  have hLU : (resolve_seller_names ps sellerIds remote).lookedUp =
      (cacheMisses ps sellerIds).take
        (min 5 (cacheMisses ps sellerIds).length) := by
    unfold resolve_seller_names
    rw [foldl_resolveStep_lookedUp]
    simp
  have hNM : (resolve_seller_names ps sellerIds remote).names =
      sellerIds.filterMap
          (fun sid => (cacheName ps sid).map (fun n => (sid, n)))
        ++ ((cacheMisses ps sellerIds).take
              (min 5 (cacheMisses ps sellerIds).length)).filterMap
            (resolvedName remote) := by
    unfold resolve_seller_names
    rw [foldl_resolveStep_names]
  have hSV : (resolve_seller_names ps sellerIds remote).savesCount =
      (((cacheMisses ps sellerIds).take
          (min 5 (cacheMisses ps sellerIds).length)).filter
        (resolvedOk remote)).length := by
    unfold resolve_seller_names
    rw [foldl_resolveStep_saves]
    simp
  refine ⟨?_, ?_, ?_, ?_, ?_, ?_⟩
  · rw [hLU]
    simp only [List.length_take]
    omega
  · intro sid hsid hmem
    rw [hLU] at hmem
    have h1 : sid ∈ cacheMisses ps sellerIds := List.mem_of_mem_take hmem
    have h2 := (List.mem_filter.mp h1).2
    simp [hsid] at h2
  · rw [hNM, List.length_append, cachedNames_length]
    have h1 : (((cacheMisses ps sellerIds).take
        (min 5 (cacheMisses ps sellerIds).length)).filterMap
        (resolvedName remote)).length ≤ 5 := by
      refine le_trans (List.length_filterMap_le _ _) ?_
      simp only [List.length_take]
      omega
    omega
  · intro sid p n hmem hrem hn
    rw [hLU] at hmem
    constructor
    · unfold resolve_seller_names
      exact foldl_resolveStep_players_keep remote _ _ sid p n hrem hn
        (Or.inl hmem)
    · rw [hNM]
      refine List.mem_append_right _ ?_
      exact List.mem_filterMap.mpr ⟨sid, hmem, by simp [resolvedName, hrem, hn]⟩
  · rw [hSV, hLU]
  · intro sid hsid hOr hmem
    rw [hNM, List.map_append] at hmem
    rcases List.mem_append.mp hmem with h1 | h1
    · have h2 := fst_mem_cachedNames ps sellerIds sid h1
      simp [hsid] at h2
    · have h2 := fst_mem_resolvedName remote _ sid h1
      rcases hOr with h3 | h3
      · exact h3 (by rw [hLU]; exact h2.1)
      · have h4 := h2.2
        rw [h3] at h4
        simp at h4

/-- Witness for C8 on a concrete input: one cached hit (no remote call), one
    resolvable miss (fetched, upserted, saved, present in the map), one
    failing miss. -/
theorem claim_C8_witness :
    (resolve_seller_names cacheW8 idsW8 remoteW8).lookedUp.length ≤ 5 ∧
    "hit1" ∉ (resolve_seller_names cacheW8 idsW8 remoteW8).lookedUp ∧
    lookupPlayer (resolve_seller_names cacheW8 idsW8 remoteW8).players "m1"
        = some ⟨"m1", some "Bob"⟩ ∧
    ("m1", "Bob") ∈ (resolve_seller_names cacheW8 idsW8 remoteW8).names := by
  have h := claim_C8 cacheW8 idsW8 remoteW8
  refine ⟨h.1, h.2.1 "hit1" (by decide), ?_, ?_⟩
  · exact (h.2.2.2.1 "m1" ⟨"m1", some "Bob"⟩ "Bob" (by decide) (by decide)
      rfl).1
  · exact (h.2.2.2.1 "m1" ⟨"m1", some "Bob"⟩ "Bob" (by decide) (by decide)
      rfl).2

set_option maxRecDepth 40000 in
/-- Claim C4: starting from an empty store with tracker 0, with the upstream
    reporting 3 pages of 20 distinct records each and every fetch
    succeeding, one cycle with any page bound of at least 3 leaves the store
    holding exactly the 60 distinct record ids (in upstream order), sets
    `highest_page_checked = 3`, and persists the result. -/
theorem claim_C4 (m : Nat) (hm : 3 ≤ m) :
    ((update_cache m upstreamC4 "t0" snapEmpty).final.players.map Prod.fst)
        = (List.range 60).map mkPlayerId ∧
    ((update_cache m upstreamC4 "t0" snapEmpty).final.players.map
        Prod.fst).Nodup ∧
    (update_cache m upstreamC4 "t0" snapEmpty).final.highestPageChecked = 3 ∧
    (update_cache m upstreamC4 "t0" snapEmpty).persisted.isSome = true := by
  have hsp : cycleStartPage ⟨3, 60, some (pagePlayers 0)⟩ snapEmpty = 0 := by
    unfold cycleStartPage
    rw [mergePage0_hpc]
    rfl
  have hstop1 : cycleStopPage m ⟨3, 60, some (pagePlayers 0)⟩ snapEmpty
      = 3 := by
    unfold cycleStopPage
    rw [hsp]
    show min 3 (0 + m) = 3
    omega
  have hstop2 : cycleStopPage 50 ⟨3, 60, some (pagePlayers 0)⟩ snapEmpty
      = 3 := by
    decide
  have hsame : update_cache m upstreamC4 "t0" snapEmpty
      = update_cache 50 upstreamC4 "t0" snapEmpty := by
    apply update_cache_eq_of_stop
    intro page0 hp
    have hp2 : InitResponse.ok (⟨3, 60, some (pagePlayers 0)⟩ : PlayersPage)
        = InitResponse.ok page0 := hp
    cases hp2
    rw [hstop1, hstop2]
  refine ⟨?_, ?_, ?_, ?_⟩ <;> rw [hsame] <;> decide

/-- Witness for C4 at the source's own page bound of 50. -/
theorem claim_C4_witness :
    3 ≤ max_pages_per_update ∧
    (update_cache max_pages_per_update upstreamC4 "t0"
        snapEmpty).final.highestPageChecked = 3 :=
  ⟨by decide, (claim_C4 max_pages_per_update (by decide)).2.2.1⟩

/-- Claim C3 (counterexample): a store loaded with tracker 10 while the
    upstream currently reports 3 total pages: throughout the cycle the
    stored tracker stays at 10, exceeding the observed total-page-count 3
    at every sweep step; only the end-of-cycle rule lowers it to 3. The
    trace lists the tracker at the start of the sweep, after each of the
    three swept pages, and after the cycle-end reassignment. -/
theorem claim_C3_counterexample :
    cycleHpcTrace 50 upstreamSmall "t2" snapHigh = [10, 10, 10, 10, 3] ∧
    10 ∈ cycleHpcTrace 50 upstreamSmall "t2" snapHigh ∧ 3 < 10 := by
  refine ⟨by decide, by decide, by decide⟩

/-- Claim C3 (amended): within one cycle the tracker is non-decreasing at
    every sweep step and never exceeds `max(initial tracker, totalPages)`;
    whenever the loaded tracker does not already exceed the observed
    total-page-count it stays at or below that count at every step,
    including after the cycle-end reassignment. At cycle end the tracker is
    reassigned only by the rule `if tracker >= totalPages then tracker :=
    totalPages`, applied to the persisted pre-reset value — so a tracker
    loaded above the current totalPages exceeds it for the whole cycle and
    is only clamped at the very end. -/
theorem claim_C3 (m : Nat) (up : CrawlUpstream) (now : String)
    (s0 : CacheSnapshot) (page0 : PlayersPage)
    (hinit : up.initResp = InitResponse.ok page0) :
    List.Chain' (fun a b : Nat => a ≤ b)
      ((cycleHpcTrace m up now s0).dropLast) ∧
    (∀ h ∈ cycleHpcTrace m up now s0,
        h ≤ max s0.highestPageChecked page0.totalPages) ∧
    (s0.highestPageChecked ≤ page0.totalPages →
        ∀ h ∈ cycleHpcTrace m up now s0, h ≤ page0.totalPages) ∧
    (∀ sp, (update_cache m up now s0).persisted = some sp →
        (update_cache m up now s0).final.highestPageChecked =
          if page0.totalPages ≤ sp.highestPageChecked then page0.totalPages
          else sp.highestPageChecked) := by
  have htrace : cycleHpcTrace m up now s0 =
      ((sweepStates up.sweepResp
          (sweepRange (cycleStartPage page0 s0) (cycleStopPage m page0 s0))
          (freshPass (cycleStartPage page0 s0) up.freshResp
            (mergePage0 page0 s0))).map
        (fun t => t.highestPageChecked))
        ++ [(update_cache m up now s0).final.highestPageChecked] := by
    simp only [cycleHpcTrace, hinit]
  have hupd : update_cache m up now s0 =
      finishCycle page0.totalPages now
        (runSweep up.sweepResp
          (sweepRange (cycleStartPage page0 s0) (cycleStopPage m page0 s0))
          (freshPass (cycleStartPage page0 s0) up.freshResp
            (mergePage0 page0 s0))) := by
    simp only [update_cache, hinit]
  set sInit := freshPass (cycleStartPage page0 s0) up.freshResp
      (mergePage0 page0 s0) with hsInit
  set pages := sweepRange (cycleStartPage page0 s0) (cycleStopPage m page0 s0)
      with hpages0
  set s3 := runSweep up.sweepResp pages sInit with hs3def
  have hIhpc : sInit.highestPageChecked = s0.highestPageChecked := by
    rw [hsInit, freshPass_hpc, mergePage0_hpc]
  have hpage : ∀ p ∈ pages, p + 1 ≤ page0.totalPages := by
    intro p hp
    rw [hpages0, mem_sweepRange] at hp
    have h2 : cycleStopPage m page0 s0 ≤ page0.totalPages := by
      unfold cycleStopPage
      exact Nat.min_le_left _ _
    omega
  have hfinalhpc : (update_cache m up now s0).final.highestPageChecked =
      if page0.totalPages ≤ s3.highestPageChecked then page0.totalPages
      else s3.highestPageChecked := by
    rw [hupd]
    unfold finishCycle
    split <;> rfl
  refine ⟨?_, ?_, ?_, ?_⟩
  · rw [htrace, List.dropLast_concat, List.chain'_map]
    exact sweepStates_chain _ _ _
  · intro h hmem
    rw [htrace] at hmem
    rcases List.mem_append.mp hmem with h1 | h1
    · obtain ⟨t, ht, rfl⟩ := List.mem_map.mp h1
      exact sweepStates_bound up.sweepResp pages sInit
        (max s0.highestPageChecked page0.totalPages)
        (by rw [hIhpc]; exact Nat.le_max_left _ _)
        (fun p hp => le_trans (hpage p hp) (Nat.le_max_right _ _)) t ht
    · have h2 : h = (update_cache m up now s0).final.highestPageChecked := by
        simpa using h1
      rw [h2, hfinalhpc]
      split
      · exact Nat.le_max_right _ _
      · rw [hs3def]
        exact runSweep_hpc_bound up.sweepResp pages sInit
          (max s0.highestPageChecked page0.totalPages)
          (by rw [hIhpc]; exact Nat.le_max_left _ _)
          (fun p hp => le_trans (hpage p hp) (Nat.le_max_right _ _))
  · intro hle h hmem
    rw [htrace] at hmem
    rcases List.mem_append.mp hmem with h1 | h1
    · obtain ⟨t, ht, rfl⟩ := List.mem_map.mp h1
      exact sweepStates_bound up.sweepResp pages sInit page0.totalPages
        (by rw [hIhpc]; exact hle) hpage t ht
    · have h2 : h = (update_cache m up now s0).final.highestPageChecked := by
        simpa using h1
      rw [h2, hfinalhpc]
      split
      · exact le_refl _
      · rw [hs3def]
        exact runSweep_hpc_bound up.sweepResp pages sInit page0.totalPages
          (by rw [hIhpc]; exact hle) hpage
  · intro sp hsp
    have hsp2 : sp = { s3 with lastUpdate := some now } := by
      rw [hupd] at hsp
      unfold finishCycle at hsp
      split at hsp
      · simp only [Option.some.injEq] at hsp
        exact hsp.symm
      · simp only [Option.some.injEq] at hsp
        exact hsp.symm
    rw [hfinalhpc, hsp2]

/-- Witness for C3 on the concrete small upstream and an empty store. -/
theorem claim_C3_witness :
    List.Chain' (fun a b : Nat => a ≤ b)
      ((cycleHpcTrace 50 upstreamSmall "t1" snapEmpty).dropLast) ∧
    (∀ h ∈ cycleHpcTrace 50 upstreamSmall "t1" snapEmpty, h ≤ 3) := by
  have h := claim_C3 50 upstreamSmall "t1" snapEmpty ⟨3, 60, some []⟩ rfl
  exact ⟨h.1, h.2.2.1 (by decide)⟩

/-- Claim C10: a failed page fetch leaves the whole store state untouched
    (in particular the tracker is not advanced for that page); a later
    successful page in the same sweep pushes the tracker strictly past the
    failed page; the next cycle resumes at the tracker when it is below
    totalPages, and that sweep range excludes every earlier page — so the
    failed page is not re-attempted until a completed full sweep (tracker at
    or above totalPages) restarts the crawl at page 0. -/
theorem claim_C10 :
    (∀ (page : Nat) (s : CacheSnapshot),
        sweepStep SweepResponse.failed page s = s) ∧
    (∀ (resp : Nat → SweepResponse) (pages : List Nat) (s : CacheSnapshot)
        (p q : Nat) (pl : List Player), q ∈ pages → p < q →
        resp q = SweepResponse.ok (some pl) →
        p < (runSweep resp pages s).highestPageChecked) ∧
    (∀ hpc tp : Nat, hpc < tp → startPageOf hpc tp = hpc) ∧
    (∀ hpc tp : Nat, tp ≤ hpc → startPageOf hpc tp = 0) ∧
    (∀ (m : Nat) (page0 : PlayersPage) (s : CacheSnapshot) (pg : Nat),
        s.highestPageChecked < page0.totalPages →
        pg < s.highestPageChecked →
        pg ∉ sweepRange (cycleStartPage page0 s)
          (cycleStopPage m page0 s)) := by
  refine ⟨?_, ?_, ?_, ?_, ?_⟩
  · intro page s
    rfl
  · intro resp pages s p q pl hq hpq hr
    have h1 := runSweep_hpc_of_mem resp pages s q pl hq hr
    omega
  · intro hpc tp h
    unfold startPageOf
    rw [if_neg (by omega)]
  · intro hpc tp h
    unfold startPageOf
    rw [if_pos h]
  · intro m page0 s pg h1 h2 hmem
    have hstart : cycleStartPage page0 s = s.highestPageChecked := by
      unfold cycleStartPage
      rw [mergePage0_hpc]
      unfold startPageOf
      rw [if_neg (by omega)]
    rw [mem_sweepRange, hstart] at hmem
    omega

/-- Witness for C10 at concrete pages, states and responses. -/
theorem claim_C10_witness :
    sweepStep SweepResponse.failed 4 snapHigh = snapHigh ∧
    1 < (runSweep (fun _ => SweepResponse.ok (some [])) [0, 1, 2]
        snapEmpty).highestPageChecked ∧
    startPageOf 2 5 = 2 ∧
    startPageOf 7 5 = 0 ∧
    1 ∉ sweepRange (cycleStartPage ⟨5, 0, none⟩ ⟨[], none, 2⟩)
        (cycleStopPage 50 ⟨5, 0, none⟩ ⟨[], none, 2⟩) := by
  have h := claim_C10
  exact ⟨h.1 4 snapHigh,
    h.2.1 (fun _ => SweepResponse.ok (some [])) [0, 1, 2] snapEmpty 1 2 []
      (by decide) (by decide) rfl,
    h.2.2.1 2 5 (by decide), h.2.2.2.1 7 5 (by decide),
    h.2.2.2.2 50 ⟨5, 0, none⟩ ⟨[], none, 2⟩ 1 (by decide) (by decide)⟩
